import Mathlib

/-!
Verification of the `QueueScheduler` class (src/src/classes/queue-scheduler.ts)
of the bullmq repository.

The TypeScript class is shallowly embedded: JS numbers that hold millisecond
timestamps are modelled as `Int` (all values involved are integers, so
`Math.round` is the identity and `parseInt` either yields an integer or NaN,
modelled as `Option Int`); the mutable instance fields (`nextTimestamp`,
`streamLastId`, `isBlocked`, `running`) become a `SchedState` record threaded
through the functions; thrown JS errors become `Except`; the remote Redis
operations (`xread`, `Scripts.updateDelaySet`, `Scripts.moveStalledJobsToWait`)
are suspension points whose results are passed in as parameters, so each
straight-line fragment of the `run` loop between suspension points becomes a
pure function on `SchedState`.
-/

/-- JS `Number.MAX_VALUE`, the sentinel used by the scheduler for
"no delayed job known pending". Its exact value is `(2^53 - 1) * 2^971`. -/
def MAX_VALUE : Int := (2 ^ 53 - 1) * 2 ^ 971

/-- The mutable instance state of a `QueueScheduler` that the `run` loop
owns, together with the loop-local `streamLastId` cursor variable. -/
structure SchedState where
  nextTimestamp : Int
  streamLastId : String
  isBlocked : Bool
  running : Bool
  deriving Repr, DecidableEq

/-- Modelled from the spec: `array2obj` lives in `src/utils`, which is not part
of the provided sources. It converts the flat `[k1, v1, k2, v2, ...]`
field-value array of a Redis stream entry into an object; a later occurrence of
a key overwrites an earlier one, as JS property assignment does. We keep the
association list and make `lookupField` honour the overwrite order. -/
def array2obj : List String → List (String × String)
  | k :: v :: rest => (k, v) :: array2obj rest
  | _ => []

/-- Property lookup on the object produced by `array2obj`: the LAST binding of
a key wins (later assignments overwrite), `none` is JS `undefined`. -/
def lookupField (obj : List (String × String)) (key : String) : Option String :=
  (obj.reverse.find? (fun p => p.1 == key)).map Prod.snd

/-- One decimal digit of a string, as a value. -/
def digitVal (c : Char) : Option Nat :=
  if c.isDigit then some (c.toNat - '0'.toNat) else none

/-- Parse a maximal run of leading decimal digits; `none` when there is none. -/
def parseDigits : List Char → Option Nat
  | [] => none
  | c :: cs =>
    match digitVal c with
    | none => none
    | some d => some (parseDigits.go d cs)
where
  /-- Left fold accumulating the value of the maximal digit run. -/
  go (acc : Nat) : List Char → Nat
    | [] => acc
    | c :: cs =>
      match digitVal c with
      | none => acc
      | some d => parseDigits.go (acc * 10 + d) cs

/-- JS `parseInt(s)` on the decimal strings the scheduler feeds it: skip an
optional sign, read the maximal run of leading decimal digits, ignore any
trailing garbage; the result is NaN (`none`) when no digit is read or when the
argument is `undefined` (`none`). -/
def jsParseInt : Option String → Option Int
  | none => none
  | some s =>
    match s.toList with
    | '-' :: cs => (parseDigits cs).map (fun n => -(n : Int))
    | '+' :: cs => (parseDigits cs).map (fun n => (n : Int))
    | cs => (parseDigits cs).map (fun n => (n : Int))

/-- A raw delay-log stream entry as delivered by `xread`:
`(position, flat field-value array)`. -/
abbrev StreamEntry := String × List String

/-- The parsed `nextTimestamp` field of a log entry:
`parseInt(array2obj(events[i][1]).nextTimestamp)`; `none` is NaN. -/
def entryNextTimestamp (e : StreamEntry) : Option Int :=
  jsParseInt (lookupField (array2obj e.2) "nextTimestamp")

/-- The body of the `for` loop over one batch of stream events
(queue-scheduler.ts lines 178-186): advance `streamLastId` to the entry's
position, parse its `nextTimestamp` field, and lower `this.nextTimestamp`
when the parsed value is strictly smaller (a NaN comparison is false, so a
non-parsing entry leaves `nextTimestamp` untouched). -/
def processEntry (st : SchedState) (e : StreamEntry) : SchedState :=
  let st := { st with streamLastId := e.1 }
  match entryNextTimestamp e with
  | some nt => if nt < st.nextTimestamp then { st with nextTimestamp := nt } else st
  | none => st

/-- The whole `for (let i = 0; i < events.length; i++)` loop over a batch. -/
def processBatch (st : SchedState) (events : List StreamEntry) : SchedState :=
  events.foldl processEntry st

/-- Byte-wise lexicographic comparison of character lists, the order Redis
uses on stream IDs of equal textual shape. -/
def charsLt : List Char → List Char → Bool
  | _, [] => false
  | [], _ :: _ => true
  | a :: as, b :: bs =>
    if a.toNat < b.toNat then true
    else if b.toNat < a.toNat then false
    else charsLt as bs

/-- Strict order on stream-ID strings (lexicographic on their characters),
used only to state the "delivered with strictly increasing positions"
hypothesis; the loop itself never compares positions. -/
def sidLt (a b : String) : Bool := charsLt a.data b.data

/-- `Math.round`: the identity on the integers the scheduler computes with. -/
def jsRound (x : Int) : Int := x

/-- `blockTime` as computed at queue-scheduler.ts lines 161-165:
`Math.round(Math.min(opts.stalledInterval, Math.max(nextTimestamp - now, 0)))`. -/
def blockTime (stalledInterval nextTimestamp now : Int) : Int :=
  jsRound (min stalledInterval (max (nextTimestamp - now) 0))

-- ------------------------------------------------------------------
-- Helper lemmas about batch processing
-- ------------------------------------------------------------------

/-- `processEntry` only ever lowers `nextTimestamp`, by exactly a `min`. -/
lemma processEntry_nextTimestamp (st : SchedState) (e : StreamEntry) :
    (processEntry st e).nextTimestamp =
      match entryNextTimestamp e with
      | some nt => min st.nextTimestamp nt
      | none => st.nextTimestamp := by
  unfold processEntry
  cases h : entryNextTimestamp e with
  | none => simp [h]
  | some nt =>
    simp only [h]
    by_cases hlt : nt < st.nextTimestamp
    · simp [hlt, min_eq_right (le_of_lt hlt)]
    · simp [hlt, min_eq_left (le_of_not_lt hlt)]

/-- `processEntry` sets the cursor to the entry's position. -/
lemma processEntry_streamLastId (st : SchedState) (e : StreamEntry) :
    (processEntry st e).streamLastId = e.1 := by
  unfold processEntry
  cases entryNextTimestamp e with
  | none => rfl
  | some nt =>
    by_cases hlt : nt < st.nextTimestamp <;> simp [hlt]

/-- After a whole batch, `nextTimestamp` is the fold of `min` over the
parsed `nextTimestamp` fields of the entries that parse, started from the
prior value. -/
lemma processBatch_nextTimestamp (events : List StreamEntry) (st : SchedState) :
    (processBatch st events).nextTimestamp =
      (events.filterMap entryNextTimestamp).foldl min st.nextTimestamp := by
  induction events generalizing st with
  | nil => rfl
  | cons e rest ih =>
    simp only [processBatch, List.foldl_cons, List.filterMap_cons]
    have hstep := processEntry_nextTimestamp st e
    cases h : entryNextTimestamp e with
    | none =>
      rw [h] at hstep
      have : (processEntry st e).nextTimestamp = st.nextTimestamp := hstep
      calc (rest.foldl processEntry (processEntry st e)).nextTimestamp
          = (rest.filterMap entryNextTimestamp).foldl min
              (processEntry st e).nextTimestamp := ih _
        _ = (rest.filterMap entryNextTimestamp).foldl min st.nextTimestamp := by
              rw [this]
    | some nt =>
      rw [h] at hstep
      calc (rest.foldl processEntry (processEntry st e)).nextTimestamp
          = (rest.filterMap entryNextTimestamp).foldl min
              (processEntry st e).nextTimestamp := ih _
        _ = (rest.filterMap entryNextTimestamp).foldl min
              (min st.nextTimestamp nt) := by rw [hstep]
        _ = ((nt :: rest.filterMap entryNextTimestamp).foldl min
              st.nextTimestamp) := by simp [List.foldl_cons]

/-- After a whole batch, the cursor is the last entry's position (the prior
cursor when the batch is empty). -/
lemma processBatch_streamLastId (events : List StreamEntry) (st : SchedState) :
    (processBatch st events).streamLastId =
      ((events.map Prod.fst).getLast?).getD st.streamLastId := by
  induction events generalizing st with
  | nil => rfl
  | cons e rest ih =>
    simp only [processBatch, List.foldl_cons, List.map_cons] at *
    rw [ih]
    cases rest with
    | nil => simp [processEntry_streamLastId]
    | cons e2 rest2 =>
      simp only [List.map_cons, List.getLast?_cons_cons]
      rw [List.getLast?_eq_getLast (e2.1 :: List.map Prod.fst rest2) (by simp)]
      simp

/-- A fold of `min` never exceeds its starting point. -/
lemma foldl_min_le_init (xs : List Int) (a : Int) : xs.foldl min a ≤ a := by
  induction xs generalizing a with
  | nil => simp
  | cons x rest ih =>
    simp only [List.foldl_cons]
    exact le_trans (ih (min a x)) (min_le_left a x)

-- ------------------------------------------------------------------
-- C1 - C3
-- ------------------------------------------------------------------

/-- C1: for every batch of delay-log entries, processing the batch never
increases `nextTimestamp`; when every entry's `nextTimestamp` field parses,
the resulting `nextTimestamp` is exactly the minimum of its prior value and
all the parsed fields (`min`-fold over the batch). Log data alone never
raises `nextTimestamp` or resets it to the `MAX_VALUE` sentinel. -/
theorem batch_min_reduction (st : SchedState) (events : List StreamEntry)
    (vals : List Int) (hparse : events.map entryNextTimestamp = vals.map some) :
    (processBatch st events).nextTimestamp = vals.foldl min st.nextTimestamp ∧
    (processBatch st events).nextTimestamp ≤ st.nextTimestamp := by
  have hfm : events.filterMap entryNextTimestamp = vals := by
    have : events.filterMap entryNextTimestamp =
        (events.map entryNextTimestamp).filterMap id := by
      rw [List.filterMap_map]
      rfl
    rw [this, hparse, List.filterMap_map]
    simp [Function.comp]
  constructor
  · rw [processBatch_nextTimestamp, hfm]
  · rw [processBatch_nextTimestamp, hfm]
    exact foldl_min_le_init vals st.nextTimestamp

/-- Witness for C1 at a concrete batch of two entries. -/
theorem batch_min_reduction_witness :
    (processBatch ⟨1000, "0-0", false, true⟩
        [("1-1", ["nextTimestamp", "700"]), ("1-2", ["nextTimestamp", "900"])]
      ).nextTimestamp = 700 := by
  have h := batch_min_reduction ⟨1000, "0-0", false, true⟩
      [("1-1", ["nextTimestamp", "700"]), ("1-2", ["nextTimestamp", "900"])]
      [700, 900] (by decide)
  rw [h.1]
  decide

/-- C2: for every non-empty batch delivered with strictly increasing
positions, the cursor `streamLastId` after the per-entry loop equals the
position of the LAST entry of the batch, never an intermediate one. -/
theorem cursor_ends_at_last (st : SchedState) (events : List StreamEntry)
    (hne : events ≠ [])
    (hinc : (events.map Prod.fst).Chain' (fun a b => sidLt a b = true)) :
    (processBatch st events).streamLastId = (events.getLast hne).1 := by
  rw [processBatch_streamLastId]
  have hne' : events.map Prod.fst ≠ [] := by
    simpa using hne
  rw [List.getLast?_eq_getLast _ hne']
  simp [List.getLast_map]

/-- Witness for C2 at a concrete increasing two-entry batch. -/
theorem cursor_ends_at_last_witness :
    (processBatch ⟨1000, "0-0", false, true⟩
        [("1-1", ["nextTimestamp", "700"]), ("1-2", ["nextTimestamp", "900"])]
      ).streamLastId = "1-2" := by
  have h := cursor_ends_at_last ⟨1000, "0-0", false, true⟩
      [("1-1", ["nextTimestamp", "700"]), ("1-2", ["nextTimestamp", "900"])]
      (by decide)
      (by rw [List.map_cons, List.map_cons, List.map_nil, List.chain'_cons]
          exact ⟨by decide, List.chain'_singleton _⟩)
  rw [h]
  rfl

/-- C3: for every `nextTimestamp` (however far in the past or future) and
every current time, the computed block time is exactly
`round(min(stalledInterval, max(nextTimestamp - now, 0)))` and lies in the
closed interval `[0, stalledInterval]` whenever `stalledInterval ≥ 0`. -/
theorem blockTime_bounded (si nt now : Int) (hsi : 0 ≤ si) :
    blockTime si nt now = jsRound (min si (max (nt - now) 0)) ∧
    0 ≤ blockTime si nt now ∧ blockTime si nt now ≤ si := by
  refine ⟨rfl, ?_, ?_⟩
  · unfold blockTime jsRound
    exact le_min hsi (le_max_right _ 0)
  · unfold blockTime jsRound
    exact min_le_left _ _

/-- Witness for C3 with a `nextTimestamp` far in the past. -/
theorem blockTime_bounded_witness :
    blockTime 30000 (-100000000) 1700000000000 =
        jsRound (min 30000 (max ((-100000000) - 1700000000000) 0)) ∧
    0 ≤ blockTime 30000 (-100000000) 1700000000000 ∧
    blockTime 30000 (-100000000) 1700000000000 ≤ 30000 :=
  blockTime_bounded 30000 (-100000000) 1700000000000 (by decide)

-- ------------------------------------------------------------------
-- Promotion step and stall sweep
-- ------------------------------------------------------------------

/-- The due-time promotion step at the tail of each loop iteration
(queue-scheduler.ts lines 199-211): when `nextTimestamp - now <= 0` the
remote `updateDelaySet(now)` is invoked; `updateResult` is the
`[nextTimestamp, id]` pair it returned. A non-zero (truthy) returned
timestamp replaces both `nextTimestamp` and `streamLastId`; a zero return
resets `nextTimestamp` to the `Number.MAX_VALUE` sentinel and leaves the
cursor alone. When `nextTimestamp - now > 0` nothing is invoked and the
state is untouched. -/
def promoteStep (st : SchedState) (now : Int) (updateResult : Int × String) :
    SchedState :=
  if st.nextTimestamp - now ≤ 0 then
    if updateResult.1 ≠ 0 then
      { st with nextTimestamp := updateResult.1, streamLastId := updateResult.2 }
    else
      { st with nextTimestamp := MAX_VALUE }
  else st

/-- C4: promotion runs again exactly when `nextTimestamp - now ≤ 0`; a
non-zero returned timestamp replaces both `nextTimestamp` and the cursor; a
zero/none return resets `nextTimestamp` to the `MAX_VALUE` sentinel with the
cursor unchanged, and the block time computed from the sentinel at any later
instant `now2` (any time at most `MAX_VALUE - stalledInterval`, which covers
every physical clock value) is exactly `stalledInterval`. -/
theorem promote_step_spec (st : SchedState) (now : Int) (updateResult : Int × String)
    (si now2 : Int) :
    (0 < st.nextTimestamp - now → promoteStep st now updateResult = st) ∧
    (st.nextTimestamp - now ≤ 0 → updateResult.1 ≠ 0 →
      promoteStep st now updateResult =
        { st with nextTimestamp := updateResult.1,
                  streamLastId := updateResult.2 }) ∧
    (st.nextTimestamp - now ≤ 0 → updateResult.1 = 0 →
      (promoteStep st now updateResult).nextTimestamp = MAX_VALUE ∧
      (promoteStep st now updateResult).streamLastId = st.streamLastId) ∧
    (0 ≤ si → now2 ≤ MAX_VALUE - si → blockTime si MAX_VALUE now2 = si) := by
  refine ⟨?_, ?_, ?_, ?_⟩
  · intro h
    unfold promoteStep
    rw [if_neg (by omega)]
  · intro h hnz
    unfold promoteStep
    rw [if_pos h, if_pos hnz]
  · intro h hz
    unfold promoteStep
    rw [if_pos h, if_neg (by simp [hz])]
    exact ⟨rfl, rfl⟩
  · intro hsi hnow
    unfold blockTime jsRound
    have h1 : si ≤ MAX_VALUE - now2 := by omega
    have h2 : (0 : Int) ≤ MAX_VALUE - now2 := le_trans hsi h1
    rw [max_eq_left h2, min_eq_left h1]

/-- Witness for C4: a due `nextTimestamp` with a zero promotion result resets
to the sentinel, keeps the cursor, and yields a full-interval block time. -/
theorem promote_step_spec_witness :
    (promoteStep ⟨100, "3-0", false, true⟩ 100 (0, "9-9")).nextTimestamp =
        MAX_VALUE ∧
    (promoteStep ⟨100, "3-0", false, true⟩ 100 (0, "9-9")).streamLastId = "3-0" ∧
    blockTime 30000 MAX_VALUE 1700000000000 = 30000 := by
  have h := promote_step_spec ⟨100, "3-0", false, true⟩ 100 (0, "9-9")
      30000 1700000000000
  exact ⟨(h.2.2.1 (by decide) rfl).1, (h.2.2.1 (by decide) rfl).2,
    h.2.2.2 (by decide) (by norm_num [MAX_VALUE])⟩

/-- Events the scheduler emits during a stall sweep; the `Error` object of a
`failed` emission is represented by its message string. -/
inductive SchedEvent where
  | failed (jobId : String) (reason : String) (prev : String)
  | stalled (jobId : String) (prev : String)
  deriving Repr, DecidableEq

/-- The reason attached to every stall-budget-exceeded `failed` event. -/
def stalledErrorMessage : String := "job stalled more than allowable limit"

/-- `moveStalledJobsToWait` (queue-scheduler.ts lines 277-291): the two lists
returned by the remote `Scripts.moveStalledJobsToWait` are passed in; each
`forEach` appends one event emission. Nothing is emitted when `closing` is
set. The returned list is the emission sequence, in order. -/
def moveStalledJobsToWait (closing : Bool) (failed stalled : List String) :
    List SchedEvent :=
  if closing then []
  else
    let afterFailed := failed.foldl
      (fun acc jobId => acc ++ [SchedEvent.failed jobId stalledErrorMessage "active"])
      []
    stalled.foldl
      (fun acc jobId => acc ++ [SchedEvent.stalled jobId "active"]) afterFailed

/-- Folding an append-one-emission step is a `map` after the accumulator. -/
lemma foldl_append_singleton {α β : Type} (f : α → β) (l : List α)
    (init : List β) :
    l.foldl (fun acc x => acc ++ [f x]) init = init ++ l.map f := by
  induction l generalizing init with
  | nil => simp
  | cons x xs ih => simp [List.foldl_cons, ih]

/-- C5: in a live sweep (not closing), the emission sequence is exactly one
`failed` event per entry of `failedIds` (reason "job stalled more than
allowable limit", prior state "active") followed by exactly one `stalled`
event per entry of `stalledIds` (prior state "active"); every `failed`
emission precedes every `stalled` emission. -/
theorem stall_sweep_emissions (failed stalled : List String) :
    moveStalledJobsToWait false failed stalled =
      failed.map (fun j => SchedEvent.failed j stalledErrorMessage "active") ++
      stalled.map (fun j => SchedEvent.stalled j "active") := by
  unfold moveStalledJobsToWait
  rw [if_neg (by simp)]
  simp only [foldl_append_singleton]
  simp

-- ------------------------------------------------------------------
-- The delayed-data read path
-- ------------------------------------------------------------------

/-- A thrown JS error, carrying its message and its classification by the
connection-error taxonomy. -/
structure JsError where
  message : String
  isConnection : Bool
  deriving Repr, DecidableEq

/-- Modelled from the spec: `isNotConnectionError` lives in `src/utils`, which
is not part of the provided sources; per the spec it classifies the
"connection lost/reset" class of error, so here it just reads the
classification bit carried by the error. -/
def isNotConnectionError (e : JsError) : Bool := !e.isConnection

/-- Modelled from the spec: `DELAY_TIME_5` (src/utils, not provided) is the
"short fixed backoff" in milliseconds applied after a swallowed connection
error. -/
def DELAY_TIME_5 : Nat := 5000

/-- What `readDelayedData` produces, together with the instrumentation the
invariants talk about: the returned data (or the rethrown error), the value
of `this.isBlocked` after the call, whether `isBlocked` was true while the
`xread` await was in flight, and the backoff slept, if any. -/
structure ReadResult (α : Type) where
  data : Except JsError (Option α)
  isBlockedAfter : Bool
  blockedDuringRead : Bool
  backoffMs : Option Nat

/-- `readDelayedData` (queue-scheduler.ts lines 227-264). The raw stream
reply type is abstract (`α`); `xreadBlocking` and `xreadNonBlocking` are the
outcomes the two `xread` variants would have (a `.ok none` is a null reply,
i.e. a block timeout; the non-blocking outcome stands for the overall result
of the `checkConnectionError` guard around the plain `xread`, the guard
itself living in queue-base outside these sources). `isBlocked0` is the
incoming value of `this.isBlocked`. When `closing` is set the whole body is
skipped and `undefined` data is returned. In the blocking branch
`this.isBlocked` is set before the await and the `finally` clears it on
every exit: normal return, swallowed connection error (after the fixed
backoff, returning undefined data), and rethrown non-connection error. -/
def readDelayedData (α : Type) (closing : Bool) (bt : Int)
    (xreadBlocking xreadNonBlocking : Except JsError (Option α))
    (isBlocked0 : Bool) : ReadResult α :=
  if closing then
    { data := .ok none, isBlockedAfter := isBlocked0,
      blockedDuringRead := false, backoffMs := none }
  else if bt ≠ 0 then
    match xreadBlocking with
    | .ok d =>
      { data := .ok d, isBlockedAfter := false,
        blockedDuringRead := true, backoffMs := none }
    | .error e =>
      if isNotConnectionError e then
        { data := .error e, isBlockedAfter := false,
          blockedDuringRead := true, backoffMs := none }
      else
        { data := .ok none, isBlockedAfter := false,
          blockedDuringRead := true, backoffMs := some DELAY_TIME_5 }
  else
    match xreadNonBlocking with
    | .ok d =>
      { data := .ok d, isBlockedAfter := isBlocked0,
        blockedDuringRead := false, backoffMs := none }
    | .error e =>
      { data := .error e, isBlockedAfter := isBlocked0,
        blockedDuringRead := false, backoffMs := none }

/-- C6: in the blocking-read path (`blockTime > 0`, not closing), an error of
the connection class is swallowed — the read returns undefined data after the
fixed `DELAY_TIME_5` backoff — while an error not of the connection class is
rethrown (and no backoff is slept). -/
theorem blocking_read_error_handling (α : Type) (bt : Int) (e : JsError)
    (xreadNonBlocking : Except JsError (Option α)) (isBlocked0 : Bool)
    (hbt : 0 < bt) :
    (e.isConnection = true →
      readDelayedData α false bt (.error e) xreadNonBlocking isBlocked0 =
        { data := .ok none, isBlockedAfter := false,
          blockedDuringRead := true, backoffMs := some DELAY_TIME_5 }) ∧
    (e.isConnection = false →
      readDelayedData α false bt (.error e) xreadNonBlocking isBlocked0 =
        { data := .error e, isBlockedAfter := false,
          blockedDuringRead := true, backoffMs := none }) := by
  have hne : bt ≠ 0 := by omega
  constructor
  · intro hc
    unfold readDelayedData
    rw [if_neg (by simp), if_pos hne]
    simp [isNotConnectionError, hc]
  · intro hc
    unfold readDelayedData
    rw [if_neg (by simp), if_pos hne]
    simp [isNotConnectionError, hc]

/-- Witness for C6 at `blockTime = 30000` with one error of each class. -/
theorem blocking_read_error_handling_witness :
    readDelayedData Unit false 30000 (.error ⟨"conn reset", true⟩) (.ok none)
        false =
      { data := .ok none, isBlockedAfter := false,
        blockedDuringRead := true, backoffMs := some DELAY_TIME_5 } ∧
    readDelayedData Unit false 30000 (.error ⟨"boom", false⟩) (.ok none)
        false =
      { data := .error ⟨"boom", false⟩, isBlockedAfter := false,
        blockedDuringRead := true, backoffMs := none } :=
  ⟨(blocking_read_error_handling Unit 30000 ⟨"conn reset", true⟩ (.ok none)
      false (by decide)).1 rfl,
   (blocking_read_error_handling Unit 30000 ⟨"boom", false⟩ (.ok none)
      false (by decide)).2 rfl⟩

/-- C10: `isBlocked` is true exactly while the blocking `xread` is in
flight — it is set just before the blocking read and cleared by the `finally`
on every exit path (normal reply, swallowed connection error, rethrown
non-connection error) — and neither the closing short-circuit nor the
non-blocking branch ever sets it, so after any call with `blockTime ≠ 0` and
not closing, `isBlocked` is false no matter how the read ended, and the other
branches leave it as it was. -/
theorem isBlocked_read_discipline (α : Type) (closing : Bool) (bt : Int)
    (xb xnb : Except JsError (Option α)) (isBlocked0 : Bool) :
    (closing = false → bt ≠ 0 →
      (readDelayedData α closing bt xb xnb isBlocked0).blockedDuringRead =
          true ∧
      (readDelayedData α closing bt xb xnb isBlocked0).isBlockedAfter =
          false) ∧
    (closing = true ∨ bt = 0 →
      (readDelayedData α closing bt xb xnb isBlocked0).blockedDuringRead =
          false ∧
      (readDelayedData α closing bt xb xnb isBlocked0).isBlockedAfter =
          isBlocked0) := by
  constructor
  · intro hc hbt
    subst hc
    unfold readDelayedData
    rw [if_neg (by simp), if_pos hbt]
    cases xb with
    | ok d => exact ⟨rfl, rfl⟩
    | error e =>
      by_cases hcls : isNotConnectionError e <;> simp [hcls]
  · intro hor
    cases hor with
    | inl hc =>
      subst hc
      unfold readDelayedData
      rw [if_pos rfl]
      exact ⟨rfl, rfl⟩
    | inr hbt =>
      cases hcl : closing with
      | true =>
        unfold readDelayedData
        rw [if_pos rfl]
        exact ⟨rfl, rfl⟩
      | false =>
        unfold readDelayedData
        rw [if_neg (by simp), if_neg (by simp [hbt])]
        cases xnb with
        | ok d => exact ⟨rfl, rfl⟩
        | error e => exact ⟨rfl, rfl⟩

/-- Witness for C10: a rethrown non-connection error still leaves
`isBlocked` cleared, and the non-blocking branch leaves it untouched. -/
theorem isBlocked_read_discipline_witness :
    (readDelayedData Unit false 30000 (.error ⟨"boom", false⟩) (.ok none)
        false).blockedDuringRead = true ∧
    (readDelayedData Unit false 30000 (.error ⟨"boom", false⟩) (.ok none)
        false).isBlockedAfter = false ∧
    (readDelayedData Unit false 0 (.ok none) (.ok none)
        false).blockedDuringRead = false ∧
    (readDelayedData Unit false 0 (.ok none) (.ok none)
        false).isBlockedAfter = false := by
  have h1 := (isBlocked_read_discipline Unit false 30000
      (.error ⟨"boom", false⟩) (.ok none) false).1 rfl (by decide)
  have h2 := (isBlocked_read_discipline Unit false 0
      (.ok none) (.ok none) false).2 (Or.inr rfl)
  exact ⟨h1.1, h1.2, h2.1, h2.2⟩

-- ------------------------------------------------------------------
-- Constructor, run-entry guard, close
-- ------------------------------------------------------------------

/-- A JS optional numeric property as the spread operator sees it: the key
can be absent, present but explicitly `undefined`, or present with a value. -/
inductive JsOpt (α : Type) where
  | absent
  | undef
  | val (v : α)
  deriving Repr, DecidableEq

/-- The options the constructor consumes (the fields the claims are about). -/
structure QueueSchedulerOptions where
  stalledInterval : JsOpt Int
  autorun : Bool
  deriving Repr, DecidableEq

/-- The defaults merge of queue-scheduler.ts lines 69-82:
`{ maxStalledCount: 1, stalledInterval: 30000, ...opts }`. A key absent from
`opts` falls back to the default 30000; a key present in `opts` — even with
an explicit `undefined` value — overrides it, as the JS spread does. -/
def mergedStalledInterval : JsOpt Int → JsOpt Int
  | .absent => .val 30000
  | x => x

/-- JS falsiness of the merged numeric property, as tested by
`if (!this.opts.stalledInterval)`: `undefined` and `0` are falsy. -/
def jsOptFalsy : JsOpt Int → Bool
  | .absent => true
  | .undef => true
  | .val v => v == 0

/-- What a successful construction yields: the merged option value and
whether the autorun branch invoked `run()`. -/
structure ConstructedScheduler where
  stalledInterval : JsOpt Int
  runInvoked : Bool
  deriving Repr, DecidableEq

/-- The constructor (queue-scheduler.ts lines 64-93): merge the defaults,
throw when the merged `stalledInterval` is falsy, and only afterwards start
the loop when `autorun` is set — so an `.error` result implies `run()` was
never invoked. -/
def constructScheduler (opts : QueueSchedulerOptions) :
    Except String ConstructedScheduler :=
  let si := mergedStalledInterval opts.stalledInterval
  if jsOptFalsy si then .error "Stalled interval cannot be zero or undefined"
  else .ok { stalledInterval := si, runInvoked := opts.autorun }

/-- C7 counterexample: constructing with `stalledInterval` UNSET (the key
absent from the options, the plain "unset" reading) does NOT throw — the
merge substitutes the default 30000 and, with `autorun`, the loop is
started. The claim that zero-or-unset is a construction-time fatal error is
therefore false for the unset case. -/
theorem construct_unset_succeeds :
    constructScheduler ⟨JsOpt.absent, true⟩ =
      .ok ⟨JsOpt.val 30000, true⟩ := by rfl

/-- C7 (amended): constructing with `stalledInterval` equal to zero, or
explicitly set to `undefined`, throws "Stalled interval cannot be zero or
undefined" before the autorun branch, so `run()` is never invoked; a fully
absent `stalledInterval` instead falls back to the default 30000 and does
not throw. -/
theorem construct_zero_or_undefined_throws (opts : QueueSchedulerOptions)
    (h : opts.stalledInterval = JsOpt.val 0 ∨
         opts.stalledInterval = JsOpt.undef) :
    constructScheduler opts =
        .error "Stalled interval cannot be zero or undefined" ∧
    ∀ s : ConstructedScheduler, constructScheduler opts ≠ .ok s := by
  have herr : constructScheduler opts =
      .error "Stalled interval cannot be zero or undefined" := by
    rcases h with h | h <;>
      simp [constructScheduler, mergedStalledInterval, jsOptFalsy, h]
  exact ⟨herr, fun s hs => by rw [herr] at hs; cases hs⟩

/-- Witness for the amended C7 at `stalledInterval = 0`. -/
theorem construct_zero_or_undefined_throws_witness :
    constructScheduler ⟨JsOpt.val 0, true⟩ =
        .error "Stalled interval cannot be zero or undefined" ∧
    ∀ s : ConstructedScheduler,
      constructScheduler ⟨JsOpt.val 0, true⟩ ≠ .ok s :=
  construct_zero_or_undefined_throws ⟨JsOpt.val 0, true⟩ (Or.inl rfl)

/-- The entry guard of `run()` (queue-scheduler.ts lines 126-221). The loop
body between `running = true` and the final `running = false` is abstracted
as `body`, a function from the instance state to the thrown-or-normal
outcome and the state it leaves behind; both the normal exit (line 213) and
the catch clause (line 215) clear `running`. On the already-running branch
nothing runs and nothing is mutated: the error is thrown with the state
returned as it came in. -/
def runEntry (body : SchedState → Except JsError Unit × SchedState)
    (st : SchedState) : Except JsError Unit × SchedState :=
  if !st.running then
    let r := body { st with running := true }
    (r.1, { r.2 with running := false })
  else
    (.error ⟨"Queue Scheduler is already running.", false⟩, st)

/-- C8: calling `run()` while `running` is already true throws the
"Queue Scheduler is already running." error and returns the instance state
exactly as it was — `running`, `nextTimestamp`, `isBlocked` and the stream
cursor are all unchanged — whatever the loop body would have been. -/
theorem run_already_running
    (body : SchedState → Except JsError Unit × SchedState)
    (st : SchedState) (h : st.running = true) :
    runEntry body st =
      (.error ⟨"Queue Scheduler is already running.", false⟩, st) := by
  unfold runEntry
  rw [h]
  rfl

/-- Witness for C8 at a concrete running state and an arbitrary body. -/
theorem run_already_running_witness :
    runEntry (fun s => (.ok (), s)) ⟨12345, "7-0", false, true⟩ =
      (.error ⟨"Queue Scheduler is already running.", false⟩,
        ⟨12345, "7-0", false, true⟩) :=
  run_already_running (fun s => (.ok (), s)) ⟨12345, "7-0", false, true⟩ rfl

/-- The promise `close()` stores in `this.closing`, identified by which
shutdown path produced it: `this.disconnect()` (forced) or `super.close()`
(graceful); both live in queue-base outside these sources, so only their
identity matters here. -/
inductive CloseHandle where
  | forcedDisconnect
  | graceful
  deriving Repr, DecidableEq

/-- The state `close()` reads and writes: the stored in-flight shutdown
handle (JS `this.closing`, `none` when not yet closing) and `isBlocked`. -/
structure CloseState where
  closing : Option CloseHandle
  isBlocked : Bool
  deriving Repr, DecidableEq

/-- `close()` (queue-scheduler.ts lines 293-303): an already-stored
`closing` promise is returned as-is; otherwise the first call picks the
forced disconnect when `isBlocked` is true and the graceful close otherwise,
stores the handle and returns it. -/
def closeScheduler (st : CloseState) : CloseHandle × CloseState :=
  match st.closing with
  | some h => (h, st)
  | none =>
    let h := if st.isBlocked then CloseHandle.forcedDisconnect
             else CloseHandle.graceful
    (h, { st with closing := some h })

/-- C9: `close()` is idempotent — calling it again on the state a call left
behind returns the very same handle and state — and the first call chooses
the forced disconnect exactly when `isBlocked` is true, the graceful close
otherwise. -/
theorem close_idempotent (st : CloseState) :
    closeScheduler (closeScheduler st).2 = closeScheduler st ∧
    (st.closing = none → st.isBlocked = true →
      (closeScheduler st).1 = CloseHandle.forcedDisconnect) ∧
    (st.closing = none → st.isBlocked = false →
      (closeScheduler st).1 = CloseHandle.graceful) := by
  refine ⟨?_, ?_, ?_⟩
  · cases hc : st.closing with
    | some h => simp [closeScheduler, hc]
    | none =>
      cases hb : st.isBlocked <;> simp [closeScheduler, hc, hb]
  · intro hc hb
    simp [closeScheduler, hc, hb]
  · intro hc hb
    simp [closeScheduler, hc, hb]

/-- Witness for C9: first call while blocked forces a disconnect, and the
repeated call returns the same in-flight handle and state. -/
theorem close_idempotent_witness :
    closeScheduler (closeScheduler ⟨none, true⟩).2 =
        closeScheduler ⟨none, true⟩ ∧
    (closeScheduler ⟨none, true⟩).1 = CloseHandle.forcedDisconnect := by
  have h := close_idempotent ⟨none, true⟩
  exact ⟨h.1, h.2.1 rfl rfl⟩
